import Mathlib

/-!
Verification of the audit-log pagination service.

The repository has three request-handling implementations over one SQLite
table `audit_events` plus an append-only payload file:

* `src/audit_log_service.py` — baseline: one SQL query with
  `WHERE created_at BETWEEN ? AND ? AND (? IS NULL OR actor_id = ?) AND
  (? IS NULL OR action = ?) ORDER BY created_at DESC, id DESC
  LIMIT page_size OFFSET (page-1)*page_size`.
* `src/audit_log_service_enhanced.py` — an in-memory copy of the table in
  the same SQL order, scanned with an early break on `created_at < from_ts`
  and paged with a Python list slice.
* `src/enhanced_audit_log_service.py` — keyset ("cursor") pagination: look
  up the row at offset `(page-1)*page_size - 1`, then fetch `page_size`
  rows strictly after that `(created_at, id)` cursor.

The embedding models the table as a `List Row`; the SQL `ORDER BY` is
`List.insertionSort` with the `(created_at DESC, id DESC)` key; SQLite
`LIMIT`/`OFFSET` semantics (negative `OFFSET` is 0, negative `LIMIT` means
no limit) and Python slice semantics are embedded explicitly; the payload
file is a `List Nat` of bytes read with seek+read semantics, and JSON
decoding is an arbitrary function parameter `decode`.
-/

namespace AuditLog

/-- One row of the `audit_events` table
(schema in `src/audit_log_service.py`, `_seed_if_needed`). -/
structure Row where
  id : Int
  created_at : Int
  actor_id : Int
  action : String
  resource_type : String
  resource_id : String
  payload_offset : Nat
  payload_len : Nat
deriving DecidableEq, Repr

/-- The query shape produced by `_pick_query` and consumed by all three
request handlers (`Query` dataclass in `src/audit_log_service.py` and
`src/enhanced_audit_log_service.py`). -/
structure Query where
  from_ts : Int
  to_ts : Int
  actor_id : Option Int
  action : Option String
  page : Int
  page_size : Int
deriving DecidableEq, Repr

/-- Boolean comparison realising the SQL sort key
`ORDER BY created_at DESC, id DESC`: `a` may come before `b`. -/
def keyLe (a b : Row) : Bool :=
  decide (b.created_at < a.created_at) ||
    (decide (a.created_at = b.created_at) && decide (b.id ≤ a.id))

/-- `keyLe` as a relation, for use with `List.insertionSort`. -/
def keyRel (a b : Row) : Prop := keyLe a b = true

instance : DecidableRel keyRel := fun a b =>
  inferInstanceAs (Decidable (keyLe a b = true))

instance : IsTotal Row keyRel := by
  constructor
  intro a b
  simp only [keyRel, keyLe, Bool.or_eq_true, Bool.and_eq_true, decide_eq_true_eq]
  omega

instance : IsTrans Row keyRel := by
  constructor
  intro a b c
  simp only [keyRel, keyLe, Bool.or_eq_true, Bool.and_eq_true, decide_eq_true_eq]
  omega

/-- Strict version of the sort key: `a` comes strictly before `b` in the
`created_at DESC, id DESC` order. -/
def keyGT (a b : Row) : Prop :=
  b.created_at < a.created_at ∨ (a.created_at = b.created_at ∧ b.id < a.id)

/-- The table as the SQL engine returns it under
`ORDER BY created_at DESC, id DESC` (any stable sort realises this; the
result is unique once ids are distinct). -/
def orderedTable (S : List Row) : List Row := List.insertionSort keyRel S

/-- `(? IS NULL OR actor_id = ?)` in the SQL of all three services. -/
def actorOk (q : Query) (r : Row) : Bool :=
  match q.actor_id with
  | none => true
  | some a => decide (r.actor_id = a)

/-- `(? IS NULL OR action = ?)` in the SQL of all three services. -/
def actionOk (q : Query) (r : Row) : Bool :=
  match q.action with
  | none => true
  | some a => decide (r.action = a)

/-- The full SQL `WHERE` clause:
`created_at BETWEEN from_ts AND to_ts` plus the two optional
equality filters. -/
def matchesQuery (q : Query) (r : Row) : Bool :=
  (decide (q.from_ts ≤ r.created_at) && decide (r.created_at ≤ q.to_ts)) &&
    (actorOk q r && actionOk q r)

/-- The ordered, filtered result set a query selects (before pagination). -/
def matchedRows (S : List Row) (q : Query) : List Row :=
  (orderedTable S).filter (matchesQuery q)

/-- SQLite `OFFSET`: a negative offset is treated as zero. -/
def sqlOffset (l : List α) (off : Int) : List α := l.drop off.toNat

/-- SQLite `LIMIT`: a negative limit means no limit; otherwise at most
`lim` rows are returned. -/
def sqlLimit (l : List α) (lim : Int) : List α :=
  if lim < 0 then l else l.take lim.toNat

/-- SQLite `LIMIT lim OFFSET off` applied to an ordered result set. -/
def sqlLimitOffset (l : List α) (lim off : Int) : List α :=
  sqlLimit (sqlOffset l off) lim

/-- Normalisation of one Python slice index against a list of length `n`:
negative indices count from the end; indices are clamped to `[0, n]`. -/
def pyIndex (n : Nat) (i : Int) : Nat :=
  if i < 0 then ((n : Int) + i).toNat else min i.toNat n

/-- Python list slice `l[a : b]` (step 1). -/
def pySlice (l : List α) (a b : Int) : List α :=
  (l.take (pyIndex l.length b)).drop (pyIndex l.length a)

/-- `f.seek(offset); f.read(length)` on the payload file: at most `length`
bytes starting at `offset` (fewer at end of file). -/
def fileRead (f : List Nat) (offset length : Nat) : List Nat :=
  (f.drop offset).take length

/-- One event dict as built by every request handler: the seven required
fields, with `payload` already decoded. -/
structure Event (α : Type) where
  id : Int
  created_at : Int
  actor_id : Int
  action : String
  resource_type : String
  resource_id : String
  payload : α
deriving DecidableEq

/-- The response dict `{"query": ..., "events": ..., "count": len(events)}`. -/
structure Response (α : Type) where
  query : Query
  events : List (Event α)
  count : Nat
deriving DecidableEq

/-- Error kinds of §7 of the spec that a request handler could surface.
The Python entry points raise no such error on the modelled paths. -/
inductive ServiceError where
  | invalidQuery : ServiceError
  | attributeError : String → ServiceError
deriving DecidableEq

/-- `_read_payload(offset, length)`: seek + read + `json.loads`, common to
all three modules; `decode` stands for `json.loads`. -/
def read_payload (decode : List Nat → α) (f : List Nat)
    (offset length : Nat) : α :=
  decode (fileRead f offset length)

/-- The event dict each handler appends for a fetched row: the row's seven
fields with the payload freshly read from the payload file. -/
def mkEvent (decode : List Nat → α) (f : List Nat) (r : Row) : Event α :=
  { id := r.id, created_at := r.created_at, actor_id := r.actor_id,
    action := r.action, resource_type := r.resource_type,
    resource_id := r.resource_id,
    payload := read_payload decode f r.payload_offset r.payload_len }

namespace AuditLogService

/-- The rows the baseline SQL query returns
(`handle_request` in `src/audit_log_service.py`):
filter, order, then `LIMIT page_size OFFSET (page-1)*page_size`. -/
def pageRows (S : List Row) (q : Query) : List Row :=
  sqlLimitOffset (matchedRows S q) q.page_size ((q.page - 1) * q.page_size)

/-- `handle_request` of `src/audit_log_service.py`, parameterised by the
query `_pick_query` produced, the table contents, the payload file and the
JSON decoder. -/
def handle_request (S : List Row) (decode : List Nat → α) (f : List Nat)
    (q : Query) : Except ServiceError (Response α) :=
  let events := (pageRows S q).map (mkEvent decode f)
  .ok { query := q, events := events, count := events.length }

end AuditLogService

namespace AuditLogServiceEnhanced

/-- `if actor_id is not None and a_id != actor_id: continue` in
`handle_request_for_query` of `src/audit_log_service_enhanced.py`. -/
def actorSkip (q : Query) (r : Row) : Bool :=
  match q.actor_id with
  | none => false
  | some a => decide (r.actor_id ≠ a)

/-- `if action is not None and a_action != action: continue`. -/
def actionSkip (q : Query) (r : Row) : Bool :=
  match q.action with
  | none => false
  | some a => decide (r.action ≠ a)

/-- The scan over `_in_memory_index` in `handle_request_for_query`:
break as soon as `created_at < from_ts` (the index is sorted descending),
skip rows outside the window or failing a filter, keep the rest. -/
def scanIndex (q : Query) : List Row → List Row
  | [] => []
  | r :: rest =>
    if r.created_at < q.from_ts then []
    else if q.to_ts < r.created_at then scanIndex q rest
    else if actorSkip q r then scanIndex q rest
    else if actionSkip q r then scanIndex q rest
    else r :: scanIndex q rest

/-- `matched[offset_rows : offset_rows + page_size]` over the scan of the
in-memory index (which holds the whole table in SQL order). -/
def pageRows (S : List Row) (q : Query) : List Row :=
  pySlice (scanIndex q (orderedTable S))
    ((q.page - 1) * q.page_size)
    ((q.page - 1) * q.page_size + q.page_size)

/-- `handle_request_for_query` of `src/audit_log_service_enhanced.py`. -/
def handle_request_for_query (S : List Row) (decode : List Nat → α)
    (f : List Nat) (q : Query) : Except ServiceError (Response α) :=
  let events := (pageRows S q).map (mkEvent decode f)
  .ok { query := q, events := events, count := events.length }

end AuditLogServiceEnhanced

namespace EnhancedAuditLogService

/-- The keyset condition of the second query in
`_fetch_events_with_cursor`:
`created_at < ? OR (created_at = ? AND id < ?)`. -/
def afterCursor (cCreatedAt cId : Int) (r : Row) : Bool :=
  decide (r.created_at < cCreatedAt) ||
    (decide (r.created_at = cCreatedAt) && decide (r.id < cId))

/-- `_fetch_events_with_cursor` of `src/enhanced_audit_log_service.py`,
at the level of fetched rows: page 1 is a plain `LIMIT`; deeper pages look
up the row at `OFFSET offset_rows - 1` and fetch `page_size` rows strictly
after that `(created_at, id)` cursor. -/
def fetch_events_with_cursor (S : List Row) (q : Query) : List Row :=
  let offset_rows : Int := (q.page - 1) * q.page_size
  if offset_rows = 0 then
    sqlLimit ((orderedTable S).filter (matchesQuery q)) q.page_size
  else
    match (sqlLimitOffset ((orderedTable S).filter (matchesQuery q)) 1
        (offset_rows - 1)).head? with
    | none => []
    | some c =>
        sqlLimit ((orderedTable S).filter
          (fun r => matchesQuery q r && afterCursor c.created_at c.id r))
          q.page_size

/-- `EnhancedAuditLogService.handle_request` of
`src/enhanced_audit_log_service.py`. -/
def handle_request (S : List Row) (decode : List Nat → α) (f : List Nat)
    (q : Query) : Except ServiceError (Response α) :=
  let events := (fetch_events_with_cursor S q).map (mkEvent decode f)
  .ok { query := q, events := events, count := events.length }

end EnhancedAuditLogService

namespace RunTests

/-- The top-level names `src/enhanced_audit_log_service.py` actually
defines (imports, module constants, classes and functions). -/
def enhancedModuleAttrs : List String :=
  ["annotations", "json", "os", "sqlite3", "threading", "time",
   "dataclass", "Any", "Dict", "List", "Optional", "Tuple",
   "DB_PATH", "PAYLOAD_FILE", "_pool_lock", "_pool", "_pool_max_size",
   "Query", "CursorState", "_get_connection", "_close_all_connections",
   "EnhancedAuditLogService", "_service", "_service_lock",
   "get_service", "init", "handle_request"]

/-- Python attribute lookup `module.name`: `AttributeError` when the
module does not define `name`. -/
def getattrE (attrs : List String) (nm : String) :
    Except ServiceError Unit :=
  if nm ∈ attrs then .ok () else .error (.attributeError nm)

/-- The `for i in range(100)` loop of `check_semantic_equivalence` in
`src/run_tests.py`: each iteration resolves
`enhanced_audit_log_service.handle_request_enhanced` before comparing;
`cmp n` abstracts the outcome of the comparisons of iteration `n`. -/
def checkIterations (cmp : Nat → Bool) : Nat → Except ServiceError Bool
  | 0 => .ok true
  | n + 1 =>
    (getattrE enhancedModuleAttrs "handle_request_enhanced").bind fun _ =>
      if cmp n then checkIterations cmp n else .ok false

/-- `check_semantic_equivalence` of `src/run_tests.py`: it first resolves
`enhanced_audit_log_service.init_enhanced`, then runs the 100-iteration
comparison loop. -/
def check_semantic_equivalence (cmp : Nat → Bool) :
    Except ServiceError Bool :=
  (getattrE enhancedModuleAttrs "init_enhanced").bind fun _ =>
    checkIterations cmp 100

/-- `main` of `src/run_tests.py` as an exit code: any exception inside the
`try` block is caught and leads to `sys.exit(1)`; a `False` equivalence
check also exits 1; otherwise the benchmark comparison decides 0 or 1.
`initResult` abstracts `audit_log_service.init()`, `benchPass` the
improvement check on the benchmark metrics. -/
def mainExit (initResult : Except ServiceError Unit) (cmp : Nat → Bool)
    (benchPass : Bool) : Nat :=
  match initResult with
  | .error _ => 1
  | .ok _ =>
    match check_semantic_equivalence cmp with
    | .error _ => 1
    | .ok false => 1
    | .ok true => if benchPass then 0 else 1

end RunTests

/-- `json.loads` stand-in used for concrete witnesses: the identity on the
raw bytes. -/
def decodeId : List Nat → List Nat := fun b => b

/-- Scenario A dataset of §8 of the spec: three events with
`created_at = 100, 100, 90` and ids `5, 3, 9` (stored unsorted, as the
table itself is unordered). -/
def rowA5 : Row :=
  { id := 5, created_at := 100, actor_id := 1, action := "LOGIN",
    resource_type := "ORDER", resource_id := "ORDER-1",
    payload_offset := 0, payload_len := 4 }

def rowA3 : Row :=
  { id := 3, created_at := 100, actor_id := 2, action := "UPDATE",
    resource_type := "USER", resource_id := "USER-2",
    payload_offset := 4, payload_len := 4 }

def rowA9 : Row :=
  { id := 9, created_at := 90, actor_id := 1, action := "DELETE",
    resource_type := "ORDER", resource_id := "ORDER-3",
    payload_offset := 8, payload_len := 4 }

def scenarioA : List Row := [rowA3, rowA9, rowA5]

/-- A concrete payload file for the scenario rows: twelve bytes, four per
payload. -/
def fileA : List Nat := [10, 11, 12, 13, 20, 21, 22, 23, 30, 31, 32, 33]

/-- Scenario A, page 1: `page=1, page_size=2, from_ts=0, to_ts=1000`. -/
def qA1 : Query :=
  { from_ts := 0, to_ts := 1000, actor_id := none, action := none,
    page := 1, page_size := 2 }

/-- Scenario A, page 2. -/
def qA2 : Query :=
  { from_ts := 0, to_ts := 1000, actor_id := none, action := none,
    page := 2, page_size := 2 }

/-- A `page = 0` query used as counterexample input. -/
def qP0 : Query :=
  { from_ts := 0, to_ts := 1000, actor_id := none, action := none,
    page := 0, page_size := 2 }

/-! ### Order lemmas -/

theorem keyGT_irrefl (a : Row) : ¬ keyGT a a := by
  unfold keyGT; omega

theorem keyGT_asymm {a b : Row} (h : keyGT a b) : ¬ keyGT b a := by
  unfold keyGT at h ⊢; omega

theorem orderedTable_sorted (S : List Row) :
    (orderedTable S).Pairwise keyRel :=
  List.sorted_insertionSort keyRel S

theorem orderedTable_perm (S : List Row) : (orderedTable S).Perm S :=
  List.perm_insertionSort keyRel S

theorem orderedTable_antitone (S : List Row) :
    (orderedTable S).Pairwise fun a b => b.created_at ≤ a.created_at := by
  refine (orderedTable_sorted S).imp ?_
  intro a b h
  simp only [keyRel, keyLe, Bool.or_eq_true, Bool.and_eq_true,
    decide_eq_true_eq] at h
  omega

theorem orderedTable_strict (S : List Row)
    (hids : S.Pairwise fun a b => a.id ≠ b.id) :
    (orderedTable S).Pairwise keyGT := by
  have h1 := orderedTable_sorted S
  have h2 : (orderedTable S).Pairwise fun a b => a.id ≠ b.id :=
    ((orderedTable_perm S).pairwise_iff fun h => h.symm).mpr hids
  refine (h1.and h2).imp ?_
  intro a b hab
  obtain ⟨hle, hne⟩ := hab
  simp only [keyRel, keyLe, Bool.or_eq_true, Bool.and_eq_true,
    decide_eq_true_eq] at hle
  unfold keyGT
  omega

theorem matchedRows_strict (S : List Row) (q : Query)
    (hids : S.Pairwise fun a b => a.id ≠ b.id) :
    (matchedRows S q).Pairwise keyGT :=
  (orderedTable_strict S hids).filter (matchesQuery q)

/-! ### The in-memory scan equals a plain filter on a sorted index -/

theorem actorSkip_eq (q : Query) (r : Row) :
    AuditLogServiceEnhanced.actorSkip q r = !(actorOk q r) := by
  rcases hq : q.actor_id with _ | a <;>
    simp [AuditLogServiceEnhanced.actorSkip, actorOk, hq]

theorem actionSkip_eq (q : Query) (r : Row) :
    AuditLogServiceEnhanced.actionSkip q r = !(actionOk q r) := by
  rcases hq : q.action with _ | a <;>
    simp [AuditLogServiceEnhanced.actionSkip, actionOk, hq]

theorem scanIndex_eq_filter (q : Query) :
    ∀ l : List Row, l.Pairwise (fun a b => b.created_at ≤ a.created_at) →
      AuditLogServiceEnhanced.scanIndex q l = l.filter (matchesQuery q)
  | [], _ => rfl
  | r :: rest, h => by
    rw [List.pairwise_cons] at h
    obtain ⟨hhead, htail⟩ := h
    have ih := scanIndex_eq_filter q rest htail
    simp only [AuditLogServiceEnhanced.scanIndex, List.filter_cons]
    by_cases h1 : r.created_at < q.from_ts
    · rw [if_pos h1]
      have hm : matchesQuery q r = false := by
        simp only [matchesQuery, Bool.and_eq_false_iff, decide_eq_false_iff_not]
        left; left; omega
      rw [hm]
      have hrest : rest.filter (matchesQuery q) = [] := by
        rw [List.filter_eq_nil_iff]
        intro x hx hmx
        have hxle := hhead x hx
        simp only [matchesQuery, Bool.and_eq_true, decide_eq_true_eq] at hmx
        omega
      simp [hrest]
    · rw [if_neg h1]
      by_cases h2 : q.to_ts < r.created_at
      · rw [if_pos h2]
        have hm : matchesQuery q r = false := by
          simp only [matchesQuery, Bool.and_eq_false_iff,
            decide_eq_false_iff_not]
          left; right; omega
        simp [hm, ih]
      · rw [if_neg h2]
        by_cases h3 : AuditLogServiceEnhanced.actorSkip q r = true
        · rw [if_pos h3]
          have hm : matchesQuery q r = false := by
            rw [actorSkip_eq, Bool.not_eq_true'] at h3
            simp only [matchesQuery, Bool.and_eq_false_iff]
            right; left; exact h3
          simp [hm, ih]
        · rw [if_neg h3]
          by_cases h4 : AuditLogServiceEnhanced.actionSkip q r = true
          · rw [if_pos h4]
            have hm : matchesQuery q r = false := by
              rw [actionSkip_eq, Bool.not_eq_true'] at h4
              simp only [matchesQuery, Bool.and_eq_false_iff]
              right; right; exact h4
            simp [hm, ih]
          · rw [if_neg h4]
            have h3' : actorOk q r = true := by
              rw [actorSkip_eq] at h3
              simpa using h3
            have h4' : actionOk q r = true := by
              rw [actionSkip_eq] at h4
              simpa using h4
            have hm : matchesQuery q r = true := by
              simp only [matchesQuery, Bool.and_eq_true, decide_eq_true_eq]
              exact ⟨⟨by omega, by omega⟩, h3', h4'⟩
            simp [hm, ih]

/-! ### Slice and limit lemmas -/

theorem pySlice_nonneg (l : List α) (a b : Int) (ha : 0 ≤ a) (hb : 0 ≤ b) :
    pySlice l a b = (l.take b.toNat).drop a.toNat := by
  unfold pySlice pyIndex
  rw [if_neg (by omega), if_neg (by omega)]
  have htb : l.take (min b.toNat l.length) = l.take b.toNat := by
    rw [← List.take_take, List.take_length]
  rw [htb]
  rcases Nat.le_total a.toNat l.length with h | h
  · rw [Nat.min_eq_left h]
  · rw [Nat.min_eq_right h,
      List.drop_eq_nil_of_le (by simp only [List.length_take]; omega),
      List.drop_eq_nil_of_le (by simp only [List.length_take]; omega)]

theorem pySlice_stop_zero (l : List α) (a : Int) : pySlice l a 0 = [] := by
  unfold pySlice pyIndex
  simp

/-! ### Reference page and equality of the three pagination strategies -/

/-- The brute-force reference page: drop the offset, take `page_size`
rows of the ordered filtered result set. -/
def refPage (S : List Row) (q : Query) : List Row :=
  ((matchedRows S q).drop ((q.page - 1) * q.page_size).toNat).take
    q.page_size.toNat

theorem baseline_pageRows_eq (S : List Row) (q : Query)
    (hps : 1 ≤ q.page_size) :
    AuditLogService.pageRows S q = refPage S q := by
  unfold AuditLogService.pageRows sqlLimitOffset sqlLimit sqlOffset refPage
  rw [if_neg (by omega)]

theorem inmem_pageRows_eq (S : List Row) (q : Query)
    (hpage : 1 ≤ q.page) (hps : 1 ≤ q.page_size) :
    AuditLogServiceEnhanced.pageRows S q = refPage S q := by
  have ho : 0 ≤ (q.page - 1) * q.page_size :=
    mul_nonneg (by omega) (by omega)
  unfold AuditLogServiceEnhanced.pageRows
  rw [scanIndex_eq_filter q _ (orderedTable_antitone S)]
  rw [pySlice_nonneg _ _ _ ho (by omega)]
  unfold refPage matchedRows
  rw [List.drop_take]
  congr 1
  omega

theorem afterCursor_true_iff (c r : Row) :
    EnhancedAuditLogService.afterCursor c.created_at c.id r = true ↔
      keyGT c r := by
  simp only [EnhancedAuditLogService.afterCursor, keyGT, Bool.or_eq_true,
    Bool.and_eq_true, decide_eq_true_eq]
  omega

theorem filter_afterCursor_getElem :
    ∀ (F : List Row), F.Pairwise keyGT → ∀ (k : Nat) (hk : k < F.length),
      F.filter
        (EnhancedAuditLogService.afterCursor (F.get ⟨k, hk⟩).created_at
          (F.get ⟨k, hk⟩).id) = F.drop (k + 1)
  | [], _, k, hk => absurd hk (by simp)
  | x :: xs, hp, 0, hk => by
    rw [List.pairwise_cons] at hp
    obtain ⟨hhead, htail⟩ := hp
    have hget : (x :: xs).get ⟨0, hk⟩ = x := rfl
    rw [hget]
    simp only [List.filter_cons, List.drop_succ_cons, List.drop_zero]
    have hx : EnhancedAuditLogService.afterCursor x.created_at x.id x = false := by
      rw [Bool.eq_false_iff]
      intro hc
      exact keyGT_irrefl x ((afterCursor_true_iff x x).mp hc)
    rw [hx]
    simp only [Bool.false_eq_true, if_false]
    rw [List.filter_eq_self]
    intro y hy
    exact (afterCursor_true_iff x y).mpr (hhead y hy)
  | x :: xs, hp, k + 1, hk => by
    rw [List.pairwise_cons] at hp
    obtain ⟨hhead, htail⟩ := hp
    have hk' : k < xs.length := by simpa using hk
    have hget : (x :: xs).get ⟨k + 1, hk⟩ = xs.get ⟨k, hk'⟩ := rfl
    rw [hget]
    simp only [List.filter_cons, List.drop_succ_cons]
    have hc : xs.get ⟨k, hk'⟩ ∈ xs := List.get_mem xs k hk'
    have hx : EnhancedAuditLogService.afterCursor
        (xs.get ⟨k, hk'⟩).created_at (xs.get ⟨k, hk'⟩).id x = false := by
      rw [Bool.eq_false_iff]
      intro hcon
      exact keyGT_asymm (hhead _ hc) ((afterCursor_true_iff _ x).mp hcon)
    rw [hx]
    simp only [Bool.false_eq_true, if_false]
    exact filter_afterCursor_getElem xs htail k hk'

theorem keyset_rows_eq (S : List Row) (q : Query)
    (hids : S.Pairwise fun a b => a.id ≠ b.id)
    (hpage : 1 ≤ q.page) (hps : 1 ≤ q.page_size) :
    EnhancedAuditLogService.fetch_events_with_cursor S q = refPage S q := by
  have hstrict := matchedRows_strict S q hids
  have ho : 0 ≤ (q.page - 1) * q.page_size :=
    mul_nonneg (by omega) (by omega)
  unfold EnhancedAuditLogService.fetch_events_with_cursor
  by_cases h0 : (q.page - 1) * q.page_size = 0
  · rw [if_pos h0]
    unfold sqlLimit refPage matchedRows
    rw [if_neg (by omega), h0]
    simp
  · rw [if_neg h0]
    have ho1 : 1 ≤ (q.page - 1) * q.page_size := by omega
    have hscrut :
        (sqlLimitOffset ((orderedTable S).filter (matchesQuery q)) 1
          ((q.page - 1) * q.page_size - 1)).head? =
        ((orderedTable S).filter (matchesQuery q))[((q.page - 1) * q.page_size - 1).toNat]? := by
      unfold sqlLimitOffset sqlLimit sqlOffset
      rw [if_neg (by omega)]
      rw [List.head?_take]
      simp [List.head?_drop]
    rw [hscrut]
    rcases hcur :
        ((orderedTable S).filter (matchesQuery q))[((q.page - 1) * q.page_size - 1).toNat]? with _ | c
    · rw [List.getElem?_eq_none_iff] at hcur
      unfold refPage matchedRows
      rw [List.drop_eq_nil_of_le (by omega), List.take_nil]
    · rw [List.getElem?_eq_some_iff] at hcur
      obtain ⟨hk, hc⟩ := hcur
      have hff : (orderedTable S).filter
          (fun r => matchesQuery q r &&
            EnhancedAuditLogService.afterCursor c.created_at c.id r) =
          ((orderedTable S).filter (matchesQuery q)).filter
            (EnhancedAuditLogService.afterCursor c.created_at c.id) := by
        rw [List.filter_filter]
        exact List.filter_congr fun a _ => by rw [Bool.and_comm]
      show sqlLimit ((orderedTable S).filter
          (fun r => matchesQuery q r &&
            EnhancedAuditLogService.afterCursor c.created_at c.id r))
          q.page_size = refPage S q
      rw [hff, ← hc]
      have hdrop := filter_afterCursor_getElem
        ((orderedTable S).filter (matchesQuery q)) hstrict
        ((q.page - 1) * q.page_size - 1).toNat hk
      rw [List.get_eq_getElem] at hdrop
      rw [hdrop]
      unfold sqlLimit refPage matchedRows
      rw [if_neg (by omega)]
      congr 2
      omega

/-! ### Behaviour at page 0 / page_size 0 (no validation in the code) -/

theorem inmem_rows_zero (S : List Row) (q : Query)
    (h : q.page = 0 ∨ q.page_size = 0) :
    AuditLogServiceEnhanced.pageRows S q = [] := by
  unfold AuditLogServiceEnhanced.pageRows
  have hb : (q.page - 1) * q.page_size + q.page_size = 0 := by
    rcases h with h | h <;> rw [h] <;> ring
  rw [hb, pySlice_stop_zero]

theorem baseline_rows_ps_zero (S : List Row) (q : Query)
    (hps : q.page_size = 0) :
    AuditLogService.pageRows S q = [] := by
  unfold AuditLogService.pageRows sqlLimitOffset sqlLimit sqlOffset
  rw [hps, if_neg (by omega)]
  simp

theorem keyset_rows_ps_zero (S : List Row) (q : Query)
    (hps : q.page_size = 0) :
    EnhancedAuditLogService.fetch_events_with_cursor S q = [] := by
  unfold EnhancedAuditLogService.fetch_events_with_cursor
  rw [if_pos (by rw [hps]; ring)]
  unfold sqlLimit
  rw [hps, if_neg (by omega)]
  simp

theorem baseline_rows_page_zero (S : List Row) (q : Query)
    (hpage : q.page = 0) (hps : 1 ≤ q.page_size) :
    AuditLogService.pageRows S q =
      (matchedRows S q).take q.page_size.toNat := by
  unfold AuditLogService.pageRows sqlLimitOffset sqlLimit sqlOffset
  rw [if_neg (by omega)]
  congr 1
  have h1 : ((q.page - 1) * q.page_size).toNat = 0 := by
    have h2 : (q.page - 1) * q.page_size = -q.page_size := by
      rw [hpage]; ring
    rw [h2]; omega
  rw [h1, List.drop_zero]

theorem keyset_rows_page_zero (S : List Row) (q : Query)
    (hids : S.Pairwise fun a b => a.id ≠ b.id)
    (hpage : q.page = 0) (hps : 1 ≤ q.page_size) :
    EnhancedAuditLogService.fetch_events_with_cursor S q =
      ((matchedRows S q).drop 1).take q.page_size.toNat := by
  have hstrict := matchedRows_strict S q hids
  unfold EnhancedAuditLogService.fetch_events_with_cursor
  have hoff : (q.page - 1) * q.page_size = -q.page_size := by
    rw [hpage]; ring
  rw [hoff, if_neg (by omega)]
  have hscrut :
      (sqlLimitOffset ((orderedTable S).filter (matchesQuery q)) 1
        (-q.page_size - 1)).head? =
      ((orderedTable S).filter (matchesQuery q))[(-q.page_size - 1).toNat]? := by
    unfold sqlLimitOffset sqlLimit sqlOffset
    rw [if_neg (by omega)]
    rw [List.head?_take]
    simp [List.head?_drop]
  rw [hscrut]
  have hzero : (-q.page_size - 1).toNat = 0 := by omega
  rw [hzero]
  rcases hcur : ((orderedTable S).filter (matchesQuery q))[0]? with _ | c
  · rw [List.getElem?_eq_none_iff] at hcur
    have hnil : (orderedTable S).filter (matchesQuery q) = [] := by
      rw [← List.length_eq_zero]
      omega
    unfold matchedRows
    rw [hnil]
    simp
  · rw [List.getElem?_eq_some_iff] at hcur
    obtain ⟨hk, hc⟩ := hcur
    have hff : (orderedTable S).filter
        (fun r => matchesQuery q r &&
          EnhancedAuditLogService.afterCursor c.created_at c.id r) =
        ((orderedTable S).filter (matchesQuery q)).filter
          (EnhancedAuditLogService.afterCursor c.created_at c.id) := by
      rw [List.filter_filter]
      exact List.filter_congr fun a _ => by rw [Bool.and_comm]
    show sqlLimit ((orderedTable S).filter
        (fun r => matchesQuery q r &&
          EnhancedAuditLogService.afterCursor c.created_at c.id r))
        q.page_size = ((matchedRows S q).drop 1).take q.page_size.toNat
    rw [hff, ← hc]
    have hdrop := filter_afterCursor_getElem
      ((orderedTable S).filter (matchesQuery q)) hstrict 0 hk
    rw [List.get_eq_getElem] at hdrop
    rw [hdrop]
    unfold sqlLimit matchedRows
    rw [if_neg (by omega)]

/-! ### Sublist and membership facts -/

/-- The events list of a handler result (the handlers on the modelled
paths always return `.ok`). -/
def eventsOf : Except ServiceError (Response α) → List (Event α)
  | .ok resp => resp.events
  | .error _ => []

theorem sqlLimit_sublist (l : List α) (lim : Int) :
    (sqlLimit l lim).Sublist l := by
  unfold sqlLimit
  split
  · exact List.Sublist.refl l
  · exact List.take_sublist _ _

theorem sqlLimitOffset_sublist (l : List α) (lim off : Int) :
    (sqlLimitOffset l lim off).Sublist l :=
  (sqlLimit_sublist _ _).trans (List.drop_sublist _ _)

theorem pySlice_sublist (l : List α) (a b : Int) :
    (pySlice l a b).Sublist l :=
  (List.drop_sublist _ _).trans (List.take_sublist _ _)

theorem filter_and_sublist (l : List α) (p r : α → Bool) :
    (l.filter fun a => p a && r a).Sublist (l.filter p) := by
  have h : (l.filter fun a => p a && r a) = (l.filter p).filter r := by
    rw [List.filter_filter]
    exact List.filter_congr fun a _ => by rw [Bool.and_comm]
  rw [h]
  exact List.filter_sublist _

theorem baseline_rows_sublist (S : List Row) (q : Query) :
    (AuditLogService.pageRows S q).Sublist (matchedRows S q) :=
  sqlLimitOffset_sublist _ _ _

theorem inmem_rows_sublist (S : List Row) (q : Query) :
    (AuditLogServiceEnhanced.pageRows S q).Sublist (matchedRows S q) := by
  unfold AuditLogServiceEnhanced.pageRows
  rw [scanIndex_eq_filter q _ (orderedTable_antitone S)]
  exact pySlice_sublist _ _ _

theorem keyset_rows_sublist (S : List Row) (q : Query) :
    (EnhancedAuditLogService.fetch_events_with_cursor S q).Sublist
      (matchedRows S q) := by
  unfold EnhancedAuditLogService.fetch_events_with_cursor matchedRows
  dsimp only
  split
  · exact sqlLimit_sublist _ _
  · split
    · exact List.nil_sublist _
    · exact (sqlLimit_sublist _ _).trans (filter_and_sublist _ _ _)

theorem mem_matchedRows {S : List Row} {q : Query} {r : Row}
    (h : r ∈ matchedRows S q) : matchesQuery q r = true ∧ r ∈ S := by
  unfold matchedRows at h
  rw [List.mem_filter] at h
  exact ⟨h.2, (orderedTable_perm S).mem_iff.mp h.1⟩

/-! ### Events inherit order and field values from rows -/

/-- The strict `(created_at DESC, id DESC)` order on returned events. -/
def eventKeyGT (a b : Event α) : Prop :=
  b.created_at < a.created_at ∨
    (a.created_at = b.created_at ∧ b.id < a.id)

theorem events_pairwise_of_rows {rows : List Row} (h : rows.Pairwise keyGT)
    (decode : List Nat → α) (f : List Nat) :
    ((rows.map (mkEvent decode f)).Pairwise eventKeyGT) := by
  rw [List.pairwise_map]
  refine h.imp ?_
  intro a b hab
  exact hab

theorem eventsOf_baseline (S : List Row) (decode : List Nat → α)
    (f : List Nat) (q : Query) :
    eventsOf (AuditLogService.handle_request S decode f q) =
      (AuditLogService.pageRows S q).map (mkEvent decode f) := rfl

theorem eventsOf_inmem (S : List Row) (decode : List Nat → α)
    (f : List Nat) (q : Query) :
    eventsOf (AuditLogServiceEnhanced.handle_request_for_query S decode f q) =
      (AuditLogServiceEnhanced.pageRows S q).map (mkEvent decode f) := rfl

theorem eventsOf_keyset (S : List Row) (decode : List Nat → α)
    (f : List Nat) (q : Query) :
    eventsOf (EnhancedAuditLogService.handle_request S decode f q) =
      (EnhancedAuditLogService.fetch_events_with_cursor S q).map
        (mkEvent decode f) := rfl

/-- Scenario A with a page past the end of the result set (3 matching
rows, `page=3, page_size=2` gives offset 4). -/
def qA3 : Query :=
  { from_ts := 0, to_ts := 1000, actor_id := none, action := none,
    page := 3, page_size := 2 }

/-! ### Claims -/

/-- C1: for every query with `page ≥ 1` and `page_size ≥ 1` over a dataset
with pairwise-distinct ids (the table's `id` is a primary key), the
response of the in-memory indexed path (`handle_request_for_query`) and
the response of the cursor/keyset path
(`EnhancedAuditLogService.handle_request`) are each field-for-field equal
to the response of the baseline brute-force SQL `LIMIT`/`OFFSET`
reference (`audit_log_service.handle_request`) for the same query. -/
theorem C1_indexed_and_cursor_match_baseline (α : Type) (S : List Row)
    (hids : S.Pairwise fun a b => a.id ≠ b.id) (q : Query)
    (hpage : 1 ≤ q.page) (hps : 1 ≤ q.page_size)
    (decode : List Nat → α) (f : List Nat) :
    AuditLogServiceEnhanced.handle_request_for_query S decode f q =
      AuditLogService.handle_request S decode f q ∧
    EnhancedAuditLogService.handle_request S decode f q =
      AuditLogService.handle_request S decode f q := by
  unfold AuditLogServiceEnhanced.handle_request_for_query
    AuditLogService.handle_request EnhancedAuditLogService.handle_request
  rw [inmem_pageRows_eq S q hpage hps, keyset_rows_eq S q hids hpage hps,
    baseline_pageRows_eq S q hps]
  exact ⟨rfl, rfl⟩

theorem C1_witness :
    (scenarioA.Pairwise (fun a b => a.id ≠ b.id) ∧ 1 ≤ qA1.page ∧
      1 ≤ qA1.page_size) ∧
    (AuditLogServiceEnhanced.handle_request_for_query scenarioA decodeId
        fileA qA1 =
      AuditLogService.handle_request scenarioA decodeId fileA qA1 ∧
    EnhancedAuditLogService.handle_request scenarioA decodeId fileA qA1 =
      AuditLogService.handle_request scenarioA decodeId fileA qA1) :=
  ⟨⟨by decide, by decide, by decide⟩,
   C1_indexed_and_cursor_match_baseline (List Nat) scenarioA (by decide)
     qA1 (by decide) (by decide) decodeId fileA⟩

/-- C2 counterexample: on the Scenario A dataset with `page = 0`,
`page_size = 2`, none of the three entry points rejects the request with
an `InvalidQuery` error — each returns a normal `.ok` response; the
cursor path even returns two events (ids 3 and 9), so storage work is
performed. -/
theorem C2_counterexample_no_validation :
    AuditLogServiceEnhanced.handle_request_for_query scenarioA decodeId
        fileA qP0 =
      .ok { query := qP0, events := [], count := 0 } ∧
    AuditLogService.handle_request scenarioA decodeId fileA qP0 =
      .ok { query := qP0,
            events := [mkEvent decodeId fileA rowA5,
                       mkEvent decodeId fileA rowA3],
            count := 2 } ∧
    EnhancedAuditLogService.handle_request scenarioA decodeId fileA qP0 =
      .ok { query := qP0,
            events := [mkEvent decodeId fileA rowA3,
                       mkEvent decodeId fileA rowA9],
            count := 2 } := by
  refine ⟨?_, ?_, ?_⟩ <;> rfl

/-- C2 (amended): none of the three entry points validates `page` or
`page_size`, and no `InvalidQuery` error is raised. Instead: for
`page_size = 0` every entry point returns a normal response with
`count = 0` and empty events; for `page = 0` with `page_size ≥ 1` the
in-memory indexed path returns `count = 0` with empty events, the
baseline returns the first page (SQLite treats the negative `OFFSET` as
0), and the cursor path returns `page_size` rows starting from the
second matching row. -/
theorem C2_amended_no_invalid_query (α : Type) (S : List Row)
    (hids : S.Pairwise fun a b => a.id ≠ b.id) (q : Query)
    (decode : List Nat → α) (f : List Nat) :
    (q.page_size = 0 →
      AuditLogService.handle_request S decode f q =
        .ok { query := q, events := [], count := 0 } ∧
      AuditLogServiceEnhanced.handle_request_for_query S decode f q =
        .ok { query := q, events := [], count := 0 } ∧
      EnhancedAuditLogService.handle_request S decode f q =
        .ok { query := q, events := [], count := 0 }) ∧
    (q.page = 0 → 1 ≤ q.page_size →
      AuditLogServiceEnhanced.handle_request_for_query S decode f q =
        .ok { query := q, events := [], count := 0 } ∧
      AuditLogService.handle_request S decode f q =
        .ok { query := q,
              events := ((matchedRows S q).take q.page_size.toNat).map
                (mkEvent decode f),
              count := ((matchedRows S q).take q.page_size.toNat).length } ∧
      EnhancedAuditLogService.handle_request S decode f q =
        .ok { query := q,
              events := (((matchedRows S q).drop 1).take
                q.page_size.toNat).map (mkEvent decode f),
              count := (((matchedRows S q).drop 1).take
                q.page_size.toNat).length }) := by
  constructor
  · intro hps0
    refine ⟨?_, ?_, ?_⟩
    · unfold AuditLogService.handle_request
      rw [baseline_rows_ps_zero S q hps0]
      rfl
    · unfold AuditLogServiceEnhanced.handle_request_for_query
      rw [inmem_rows_zero S q (Or.inr hps0)]
      rfl
    · unfold EnhancedAuditLogService.handle_request
      rw [keyset_rows_ps_zero S q hps0]
      rfl
  · intro hpage hps
    refine ⟨?_, ?_, ?_⟩
    · unfold AuditLogServiceEnhanced.handle_request_for_query
      rw [inmem_rows_zero S q (Or.inl hpage)]
      rfl
    · unfold AuditLogService.handle_request
      rw [baseline_rows_page_zero S q hpage hps]
      simp [List.length_map]
    · unfold EnhancedAuditLogService.handle_request
      rw [keyset_rows_page_zero S q hids hpage hps]
      simp [List.length_map]

theorem C2_amended_witness :
    scenarioA.Pairwise (fun a b => a.id ≠ b.id) ∧ qP0.page = 0 ∧
    1 ≤ qP0.page_size ∧
    AuditLogServiceEnhanced.handle_request_for_query scenarioA decodeId
        fileA qP0 =
      .ok { query := qP0, events := [], count := 0 } :=
  ⟨by decide, by decide, by decide,
   ((C2_amended_no_invalid_query (List Nat) scenarioA (by decide) qP0
      decodeId fileA).2 (by decide) (by decide)).1⟩

/-- C3: for every query (over a dataset with pairwise-distinct ids), the
events returned by each of the three implementations are sorted by
`created_at` descending with ties broken by `id` descending. -/
theorem C3_events_sorted (α : Type) (S : List Row)
    (hids : S.Pairwise fun a b => a.id ≠ b.id) (q : Query)
    (decode : List Nat → α) (f : List Nat) :
    (eventsOf (AuditLogService.handle_request S decode f q)).Pairwise
      eventKeyGT ∧
    (eventsOf (AuditLogServiceEnhanced.handle_request_for_query S decode
        f q)).Pairwise eventKeyGT ∧
    (eventsOf (EnhancedAuditLogService.handle_request S decode
        f q)).Pairwise eventKeyGT := by
  have hstrict := matchedRows_strict S q hids
  rw [eventsOf_baseline, eventsOf_inmem, eventsOf_keyset]
  exact ⟨events_pairwise_of_rows
      (List.Pairwise.sublist (baseline_rows_sublist S q) hstrict) decode f,
    events_pairwise_of_rows
      (List.Pairwise.sublist (inmem_rows_sublist S q) hstrict) decode f,
    events_pairwise_of_rows
      (List.Pairwise.sublist (keyset_rows_sublist S q) hstrict) decode f⟩

theorem C3_witness :
    scenarioA.Pairwise (fun a b => a.id ≠ b.id) ∧
    (eventsOf (AuditLogService.handle_request scenarioA decodeId fileA
        qA1)).Pairwise eventKeyGT :=
  ⟨by decide,
   (C3_events_sorted (List Nat) scenarioA (by decide) qA1 decodeId
      fileA).1⟩

/-- C4: every event returned by any of the three implementations lies in
the query's time window (`from_ts ≤ created_at ≤ to_ts`), and the query's
`actor_id` is absent or equal to the event's, and the query's `action` is
absent or equal to the event's. -/
theorem C4_filter_correctness (α : Type) (S : List Row) (q : Query)
    (decode : List Nat → α) (f : List Nat) (e : Event α)
    (he : e ∈ eventsOf (AuditLogService.handle_request S decode f q) ∨
      e ∈ eventsOf (AuditLogServiceEnhanced.handle_request_for_query S
        decode f q) ∨
      e ∈ eventsOf (EnhancedAuditLogService.handle_request S decode f q)) :
    q.from_ts ≤ e.created_at ∧ e.created_at ≤ q.to_ts ∧
    (q.actor_id = none ∨ q.actor_id = some e.actor_id) ∧
    (q.action = none ∨ q.action = some e.action) := by
  have hmem : ∃ r, r ∈ matchedRows S q ∧ e = mkEvent decode f r := by
    rcases he with he | he | he
    · rw [eventsOf_baseline] at he
      obtain ⟨r, hr, hre⟩ := List.mem_map.mp he
      exact ⟨r, (baseline_rows_sublist S q).subset hr, hre.symm⟩
    · rw [eventsOf_inmem] at he
      obtain ⟨r, hr, hre⟩ := List.mem_map.mp he
      exact ⟨r, (inmem_rows_sublist S q).subset hr, hre.symm⟩
    · rw [eventsOf_keyset] at he
      obtain ⟨r, hr, hre⟩ := List.mem_map.mp he
      exact ⟨r, (keyset_rows_sublist S q).subset hr, hre.symm⟩
  obtain ⟨r, hr, rfl⟩ := hmem
  have hm := (mem_matchedRows hr).1
  simp only [matchesQuery, Bool.and_eq_true, decide_eq_true_eq] at hm
  obtain ⟨⟨hfrom, hto⟩, hactor, haction⟩ := hm
  refine ⟨hfrom, hto, ?_, ?_⟩
  · rcases hq : q.actor_id with _ | a
    · exact Or.inl rfl
    · right
      unfold actorOk at hactor
      rw [hq] at hactor
      simp only [decide_eq_true_eq] at hactor
      exact congrArg some hactor.symm
  · rcases hq : q.action with _ | a
    · exact Or.inl rfl
    · right
      unfold actionOk at haction
      rw [hq] at haction
      simp only [decide_eq_true_eq] at haction
      exact congrArg some haction.symm

theorem C4_witness :
    (mkEvent decodeId fileA rowA5 ∈
      eventsOf (AuditLogService.handle_request scenarioA decodeId fileA
        qA1) ∨
     mkEvent decodeId fileA rowA5 ∈
      eventsOf (AuditLogServiceEnhanced.handle_request_for_query scenarioA
        decodeId fileA qA1) ∨
     mkEvent decodeId fileA rowA5 ∈
      eventsOf (EnhancedAuditLogService.handle_request scenarioA decodeId
        fileA qA1)) ∧
    (qA1.from_ts ≤ (mkEvent decodeId fileA rowA5).created_at ∧
     (mkEvent decodeId fileA rowA5).created_at ≤ qA1.to_ts ∧
     (qA1.actor_id = none ∨
       qA1.actor_id = some (mkEvent decodeId fileA rowA5).actor_id) ∧
     (qA1.action = none ∨
       qA1.action = some (mkEvent decodeId fileA rowA5).action)) :=
  ⟨Or.inl (by decide),
   C4_filter_correctness (List Nat) scenarioA qA1 decodeId fileA
     (mkEvent decodeId fileA rowA5) (Or.inl (by decide))⟩

/-- C5: for every valid query (`page ≥ 1`, `page_size ≥ 1`) each of the
three implementations returns at most `page_size` events — their counts
all equal the reference page length — and the count is strictly below
`page_size` only on the last page: then the whole matching result set is
contained in pages 1..page. -/
theorem C5_page_size_bound (α : Type) (S : List Row)
    (hids : S.Pairwise fun a b => a.id ≠ b.id) (q : Query)
    (hpage : 1 ≤ q.page) (hps : 1 ≤ q.page_size)
    (decode : List Nat → α) (f : List Nat) :
    ((eventsOf (AuditLogService.handle_request S decode f q)).length =
        (refPage S q).length ∧
     (eventsOf (AuditLogServiceEnhanced.handle_request_for_query S decode
        f q)).length = (refPage S q).length ∧
     (eventsOf (EnhancedAuditLogService.handle_request S decode
        f q)).length = (refPage S q).length) ∧
    ((refPage S q).length : Int) ≤ q.page_size ∧
    (((refPage S q).length : Int) < q.page_size →
      ((matchedRows S q).length : Int) ≤
        (q.page - 1) * q.page_size + (refPage S q).length) := by
  have ho : 0 ≤ (q.page - 1) * q.page_size :=
    mul_nonneg (by omega) (by omega)
  have hlen : (refPage S q).length =
      min q.page_size.toNat
        ((matchedRows S q).length - ((q.page - 1) * q.page_size).toNat) := by
    unfold refPage
    rw [List.length_take, List.length_drop]
  refine ⟨⟨?_, ?_, ?_⟩, ?_, ?_⟩
  · rw [eventsOf_baseline, List.length_map, baseline_pageRows_eq S q hps]
  · rw [eventsOf_inmem, List.length_map, inmem_pageRows_eq S q hpage hps]
  · rw [eventsOf_keyset, List.length_map, keyset_rows_eq S q hids hpage hps]
  · rw [hlen]; omega
  · rw [hlen]; omega

theorem C5_witness :
    (scenarioA.Pairwise (fun a b => a.id ≠ b.id) ∧ 1 ≤ qA2.page ∧
      1 ≤ qA2.page_size) ∧
    ((refPage scenarioA qA2).length : Int) ≤ qA2.page_size ∧
    (((refPage scenarioA qA2).length : Int) < qA2.page_size →
      ((matchedRows scenarioA qA2).length : Int) ≤
        (qA2.page - 1) * qA2.page_size + (refPage scenarioA qA2).length) :=
  ⟨⟨by decide, by decide, by decide⟩,
   (C5_page_size_bound (List Nat) scenarioA (by decide) qA2 (by decide)
      (by decide) decodeId fileA).2⟩

/-- C6: for every valid query whose page lies beyond the last available
page of the matching result set (the offset is at least the number of
matching rows), each of the three implementations returns a normal
response with `count = 0` and an empty events list — no error. -/
theorem C6_beyond_last_page (α : Type) (S : List Row)
    (hids : S.Pairwise fun a b => a.id ≠ b.id) (q : Query)
    (hpage : 1 ≤ q.page) (hps : 1 ≤ q.page_size)
    (hbeyond : ((matchedRows S q).length : Int) ≤
      (q.page - 1) * q.page_size)
    (decode : List Nat → α) (f : List Nat) :
    AuditLogService.handle_request S decode f q =
      .ok { query := q, events := [], count := 0 } ∧
    AuditLogServiceEnhanced.handle_request_for_query S decode f q =
      .ok { query := q, events := [], count := 0 } ∧
    EnhancedAuditLogService.handle_request S decode f q =
      .ok { query := q, events := [], count := 0 } := by
  have ho : 0 ≤ (q.page - 1) * q.page_size :=
    mul_nonneg (by omega) (by omega)
  have hempty : refPage S q = [] := by
    unfold refPage
    rw [List.drop_eq_nil_of_le (by omega), List.take_nil]
  refine ⟨?_, ?_, ?_⟩
  · unfold AuditLogService.handle_request
    rw [baseline_pageRows_eq S q hps, hempty]
    rfl
  · unfold AuditLogServiceEnhanced.handle_request_for_query
    rw [inmem_pageRows_eq S q hpage hps, hempty]
    rfl
  · unfold EnhancedAuditLogService.handle_request
    rw [keyset_rows_eq S q hids hpage hps, hempty]
    rfl

theorem C6_witness :
    (scenarioA.Pairwise (fun a b => a.id ≠ b.id) ∧ 1 ≤ qA3.page ∧
      1 ≤ qA3.page_size ∧
      ((matchedRows scenarioA qA3).length : Int) ≤
        (qA3.page - 1) * qA3.page_size) ∧
    AuditLogService.handle_request scenarioA decodeId fileA qA3 =
      .ok { query := qA3, events := [], count := 0 } :=
  ⟨⟨by decide, by decide, by decide, by decide⟩,
   (C6_beyond_last_page (List Nat) scenarioA (by decide) qA3 (by decide)
      (by decide) (by decide) decodeId fileA).1⟩

/-- C7: on the Scenario A dataset (three events with `created_at`
100, 100, 90 and ids 5, 3, 9), the query `from_ts=0, to_ts=1000,
page_size=2` without filters returns events with ids `[5, 3]` on page 1
and `[9]` on page 2, in all three implementations. -/
theorem C7_scenario_a :
    ((eventsOf (AuditLogService.handle_request scenarioA decodeId fileA
        qA1)).map Event.id = [5, 3] ∧
     (eventsOf (AuditLogServiceEnhanced.handle_request_for_query scenarioA
        decodeId fileA qA1)).map Event.id = [5, 3] ∧
     (eventsOf (EnhancedAuditLogService.handle_request scenarioA decodeId
        fileA qA1)).map Event.id = [5, 3]) ∧
    ((eventsOf (AuditLogService.handle_request scenarioA decodeId fileA
        qA2)).map Event.id = [9] ∧
     (eventsOf (AuditLogServiceEnhanced.handle_request_for_query scenarioA
        decodeId fileA qA2)).map Event.id = [9] ∧
     (eventsOf (EnhancedAuditLogService.handle_request scenarioA decodeId
        fileA qA2)).map Event.id = [9]) := by
  decide

/-- C8: each event any of the three implementations returns is built from
a row of the dataset, and its `payload` equals `decode` applied to the
`payload_len` bytes of the payload file starting at `payload_offset`,
exactly as `_read_payload` computes it. The "never served from a cache"
clause is represented by the read being a function of the payload-file
contents `f` supplied at request time: every event of every response
carries `decode (fileRead f ...)` of the current `f`, and nothing else. -/
theorem C8_payload_from_disk (α : Type) (S : List Row) (q : Query)
    (decode : List Nat → α) (f : List Nat) (e : Event α)
    (he : e ∈ eventsOf (AuditLogService.handle_request S decode f q) ∨
      e ∈ eventsOf (AuditLogServiceEnhanced.handle_request_for_query S
        decode f q) ∨
      e ∈ eventsOf (EnhancedAuditLogService.handle_request S decode f q)) :
    ∃ r, r ∈ S ∧ e = mkEvent decode f r ∧
      e.payload = decode (fileRead f r.payload_offset r.payload_len) := by
  have hmem : ∃ r, r ∈ matchedRows S q ∧ e = mkEvent decode f r := by
    rcases he with he | he | he
    · rw [eventsOf_baseline] at he
      obtain ⟨r, hr, hre⟩ := List.mem_map.mp he
      exact ⟨r, (baseline_rows_sublist S q).subset hr, hre.symm⟩
    · rw [eventsOf_inmem] at he
      obtain ⟨r, hr, hre⟩ := List.mem_map.mp he
      exact ⟨r, (inmem_rows_sublist S q).subset hr, hre.symm⟩
    · rw [eventsOf_keyset] at he
      obtain ⟨r, hr, hre⟩ := List.mem_map.mp he
      exact ⟨r, (keyset_rows_sublist S q).subset hr, hre.symm⟩
  obtain ⟨r, hr, rfl⟩ := hmem
  exact ⟨r, (mem_matchedRows hr).2, rfl, rfl⟩

theorem C8_witness :
    (mkEvent decodeId fileA rowA9 ∈
      eventsOf (AuditLogService.handle_request scenarioA decodeId fileA
        qA2) ∨
     mkEvent decodeId fileA rowA9 ∈
      eventsOf (AuditLogServiceEnhanced.handle_request_for_query scenarioA
        decodeId fileA qA2) ∨
     mkEvent decodeId fileA rowA9 ∈
      eventsOf (EnhancedAuditLogService.handle_request scenarioA decodeId
        fileA qA2)) ∧
    (∃ r, r ∈ scenarioA ∧
      mkEvent decodeId fileA rowA9 = mkEvent decodeId fileA r ∧
      (mkEvent decodeId fileA rowA9).payload =
        decodeId (fileRead fileA r.payload_offset r.payload_len)) :=
  ⟨Or.inl (by decide),
   C8_payload_from_disk (List Nat) scenarioA qA2 decodeId fileA
     (mkEvent decodeId fileA rowA9) (Or.inl (by decide))⟩

/-- C9: `run_tests.check_semantic_equivalence` always fails with an
`AttributeError` on `enhanced_audit_log_service.init_enhanced` (a name
the module does not define, just like `handle_request_enhanced`), so the
equivalence check never compares any results, and `run_tests.main`
always exits with status 1 — whatever `audit_log_service.init` does,
whatever the comparisons would have said and whatever the benchmark
would have measured. -/
theorem C9_run_tests_attribute_error (initResult : Except ServiceError
    Unit) (cmp : Nat → Bool) (benchPass : Bool) :
    "init_enhanced" ∉ RunTests.enhancedModuleAttrs ∧
    "handle_request_enhanced" ∉ RunTests.enhancedModuleAttrs ∧
    RunTests.check_semantic_equivalence cmp =
      .error (.attributeError "init_enhanced") ∧
    RunTests.mainExit initResult cmp benchPass = 1 := by
  have h : RunTests.check_semantic_equivalence cmp =
      .error (.attributeError "init_enhanced") := by
    unfold RunTests.check_semantic_equivalence RunTests.getattrE
    rw [if_neg (by decide)]
    rfl
  refine ⟨by decide, by decide, h, ?_⟩
  unfold RunTests.mainExit
  cases initResult
  · rfl
  · rw [h]

/-- C10: for every query with `page = 0` and `page_size ≥ 1`,
`handle_request_for_query` raises no error and returns `count = 0` with
an empty events list: the computed offset `(page-1)*page_size` is
negative, and the Python slice `matched[-page_size : 0]` is empty. -/
theorem C10_inmem_page_zero (α : Type) (S : List Row) (q : Query)
    (hpage : q.page = 0) (hps : 1 ≤ q.page_size)
    (decode : List Nat → α) (f : List Nat) :
    AuditLogServiceEnhanced.handle_request_for_query S decode f q =
      .ok { query := q, events := [], count := 0 } := by
  unfold AuditLogServiceEnhanced.handle_request_for_query
  rw [inmem_rows_zero S q (Or.inl hpage)]
  rfl

theorem C10_witness :
    qP0.page = 0 ∧ 1 ≤ qP0.page_size ∧
    AuditLogServiceEnhanced.handle_request_for_query scenarioA decodeId
        fileA qP0 =
      .ok { query := qP0, events := [], count := 0 } :=
  ⟨by decide, by decide,
   C10_inmem_page_zero (List Nat) scenarioA qP0 (by decide) (by decide)
     decodeId fileA⟩

end AuditLog

